import Mathlib

/-!
Verification of the casino ledger engine
(`src/casino/casino.handlers.ts`) and the HMAC transport layer
(`src/lib/hmac.ts`, `src/casino/casino.hmac.ts`).

The engine processes externally identified debit / credit / rollback
requests against a single wallet: each handler first consults the
transaction ledger keyed by `externalTransactionId` (idempotency gate,
replaying the cached response on a hit), then resolves the session,
validates business rules, and on success atomically applies the balance
delta and appends a `TransactionRecord` carrying the cached response.
The embedding below renders each handler as a pure function from an
`EngineState` (wallet balance, session/game facts, ledger) and the
request fields to a result together with the successor state.
-/

namespace Casino

/-- Transaction types stored in `casinoTransaction.transactionType`. -/
inductive TxType where
  | debit
  | credit
  | rollback
deriving DecidableEq, Repr

/-- The JSON payload a handler returns and caches in `responseCache`.
`balance` keeps the integer value that the source stringifies; `tombstone`
is `true` exactly when the source payload carries `tombstone: true`. -/
structure Response where
  transactionId : String
  balance : Int
  currency : String
  status : String
  tombstone : Bool
deriving DecidableEq, Repr

/-- A row of the `casinoTransaction` table (the fields the engine reads). -/
structure TransactionRecord where
  transactionType : TxType
  amount : Int
  externalTransactionId : String
  externalRoundId : String
  relatedExternalTransactionId : Option String
  balanceAfter : Int
  responseCache : Response
deriving DecidableEq, Repr

/-- The state a mutating handler touches: the wallet row, the facts the
resolved session supplies (`game.minBet`, `game.maxBet`, and whether the
session lookup succeeds at all), and the transaction ledger in order of
successful application. -/
structure EngineState where
  playableBalance : Int
  currencyCode : String
  minBet : Int
  maxBet : Int
  sessionValid : Bool
  ledger : List TransactionRecord
deriving DecidableEq, Repr

/-- The error classes the handlers produce (non-500 rejects). -/
inductive CasinoError where
  | SessionNotFound
  | AmountOutOfRange
  | InsufficientFunds
  | InvalidRollbackTarget
  | RollbackAfterPayout
deriving DecidableEq, Repr

/-- `prisma.casinoTransaction.findUnique({ where: { externalTransactionId } })`:
the ledger has a uniqueness constraint on the key, so the first match is
the only one. -/
def findByExternalId (ledger : List TransactionRecord) (id : String) :
    Option TransactionRecord :=
  ledger.find? (fun r => r.externalTransactionId == id)

/-- `prisma.casinoTransaction.findFirst({ where: { externalRoundId: roundId,
transactionType: "credit" } })` viewed as a Boolean. -/
def hasCreditForRound (ledger : List TransactionRecord) (roundId : String) :
    Bool :=
  ledger.any (fun r =>
    r.externalRoundId == roundId && r.transactionType == TxType.credit)

/-- `POST /casino/debit` (`debit` in casino.handlers.ts): idempotency gate,
session resolution, bet-bounds check, then inside the transaction the
insufficient-funds check, balance update and record append. -/
def debit (s : EngineState) (transactionId roundId : String) (amount : Int) :
    Except CasinoError Response × EngineState :=
  match findByExternalId s.ledger transactionId with
  | some existing => (Except.ok existing.responseCache, s)
  | none =>
    if s.sessionValid = false then
      (Except.error CasinoError.SessionNotFound, s)
    else if amount < s.minBet ∨ amount > s.maxBet then
      (Except.error CasinoError.AmountOutOfRange, s)
    else if s.playableBalance < amount then
      (Except.error CasinoError.InsufficientFunds, s)
    else
      let newBalance := s.playableBalance - amount
      let responsePayload : Response :=
        { transactionId := transactionId
          balance := newBalance
          currency := s.currencyCode
          status := "ok"
          tombstone := false }
      (Except.ok responsePayload,
        { s with
            playableBalance := newBalance
            ledger := s.ledger ++
              [{ transactionType := TxType.debit
                 amount := amount
                 externalTransactionId := transactionId
                 externalRoundId := roundId
                 relatedExternalTransactionId := none
                 balanceAfter := newBalance
                 responseCache := responsePayload }] })

/-- `POST /casino/credit` (`credit` in casino.handlers.ts): idempotency gate,
session resolution, then unconditionally apply the positive delta and append
the record.  `relatedTransactionId || null` maps the empty string to null. -/
def credit (s : EngineState) (transactionId roundId : String) (amount : Int)
    (relatedTransactionId : Option String) :
    Except CasinoError Response × EngineState :=
  match findByExternalId s.ledger transactionId with
  | some existing => (Except.ok existing.responseCache, s)
  | none =>
    if s.sessionValid = false then
      (Except.error CasinoError.SessionNotFound, s)
    else
      let newBalance := s.playableBalance + amount
      let responsePayload : Response :=
        { transactionId := transactionId
          balance := newBalance
          currency := s.currencyCode
          status := "ok"
          tombstone := false }
      (Except.ok responsePayload,
        { s with
            playableBalance := newBalance
            ledger := s.ledger ++
              [{ transactionType := TxType.credit
                 amount := amount
                 externalTransactionId := transactionId
                 externalRoundId := roundId
                 relatedExternalTransactionId :=
                   match relatedTransactionId with
                   | some rel => if rel = "" then none else some rel
                   | none => none
                 balanceAfter := newBalance
                 responseCache := responsePayload }] })

/-- `POST /casino/rollback` (`rollback` in casino.handlers.ts): idempotency
gate, session resolution, lookup of `originalTransactionId`; tombstone when
not found, `InvalidRollbackTarget` when not a debit, `RollbackAfterPayout`
when the request round already has a credit, else reverse the debit. -/
def rollback (s : EngineState)
    (transactionId roundId originalTransactionId : String) :
    Except CasinoError Response × EngineState :=
  match findByExternalId s.ledger transactionId with
  | some existing => (Except.ok existing.responseCache, s)
  | none =>
    if s.sessionValid = false then
      (Except.error CasinoError.SessionNotFound, s)
    else
      match findByExternalId s.ledger originalTransactionId with
      | none =>
        let tombstoneResponse : Response :=
          { transactionId := transactionId
            balance := s.playableBalance
            currency := s.currencyCode
            status := "ok"
            tombstone := true }
        (Except.ok tombstoneResponse,
          { s with
              ledger := s.ledger ++
                [{ transactionType := TxType.rollback
                   amount := 0
                   externalTransactionId := transactionId
                   externalRoundId := roundId
                   relatedExternalTransactionId := some originalTransactionId
                   balanceAfter := s.playableBalance
                   responseCache := tombstoneResponse }] })
      | some originalTx =>
        if originalTx.transactionType ≠ TxType.debit then
          (Except.error CasinoError.InvalidRollbackTarget, s)
        else if hasCreditForRound s.ledger roundId then
          (Except.error CasinoError.RollbackAfterPayout, s)
        else
          let newBalance := s.playableBalance + originalTx.amount
          let responsePayload : Response :=
            { transactionId := transactionId
              balance := newBalance
              currency := s.currencyCode
              status := "ok"
              tombstone := false }
          (Except.ok responsePayload,
            { s with
                playableBalance := newBalance
                ledger := s.ledger ++
                  [{ transactionType := TxType.rollback
                     amount := originalTx.amount
                     externalTransactionId := transactionId
                     externalRoundId := roundId
                     relatedExternalTransactionId := some originalTransactionId
                     balanceAfter := newBalance
                     responseCache := responsePayload }] })

/-- `POST /casino/getBalance`: read-only, no idempotency key, no mutation. -/
def getBalance (s : EngineState) : Except CasinoError (Int × String) :=
  if s.sessionValid = false then Except.error CasinoError.SessionNotFound
  else Except.ok (s.playableBalance, s.currencyCode)

/-- One mutating request as the engine receives it. -/
inductive CasinoRequest where
  | debitReq (transactionId roundId : String) (amount : Int)
  | creditReq (transactionId roundId : String) (amount : Int)
      (relatedTransactionId : Option String)
  | rollbackReq (transactionId roundId originalTransactionId : String)
deriving DecidableEq, Repr

/-- Apply one request, keeping only the successor state. -/
def applyRequest (s : EngineState) : CasinoRequest → EngineState
  | CasinoRequest.debitReq transactionId roundId amount =>
    (debit s transactionId roundId amount).2
  | CasinoRequest.creditReq transactionId roundId amount rel =>
    (credit s transactionId roundId amount rel).2
  | CasinoRequest.rollbackReq transactionId roundId originalTransactionId =>
    (rollback s transactionId roundId originalTransactionId).2

/-- Run a whole request stream through the engine. -/
def runRequests (s : EngineState) (reqs : List CasinoRequest) : EngineState :=
  reqs.foldl applyRequest s

/-- The signed contribution of one ledger record to the wallet balance:
a debit subtracts its amount, a credit adds it, a rollback adds it
(the original debit amount for a reversal, zero for a tombstone). -/
def signedEffect (r : TransactionRecord) : Int :=
  match r.transactionType with
  | TxType.debit => -r.amount
  | TxType.credit => r.amount
  | TxType.rollback => r.amount

/-- Total signed effect of a ledger. -/
def ledgerEffect (ledger : List TransactionRecord) : Int :=
  (ledger.map signedEffect).sum

end Casino

/-!
The transport layer (`src/lib/hmac.ts` and `src/casino/casino.hmac.ts`).
The keyed hash itself (`crypto.createHmac("sha256", secret)` over the
canonically serialized body) is abstracted as a function parameter
`hmac : String → String → String` from serialized payload and secret to
the hex digest; everything downstream of the digest is embedded exactly.
-/

namespace Hmac

/-- Value of one hex digit, as `Buffer.from(_, "hex")` reads it. -/
def hexVal (c : Char) : Option Nat :=
  if '0' ≤ c ∧ c ≤ '9' then some (c.toNat - 48)
  else if 'a' ≤ c ∧ c ≤ 'f' then some (c.toNat - 87)
  else if 'A' ≤ c ∧ c ≤ 'F' then some (c.toNat - 55)
  else none

/-- Decode hex digit pairs into bytes, stopping at the first invalid or
incomplete pair, as `Buffer.from(str, "hex")` does in Node. -/
def hexPairs : List Char → List Nat
  | c1 :: c2 :: rest =>
    match hexVal c1, hexVal c2 with
    | some hi, some lo => (16 * hi + lo) :: hexPairs rest
    | _, _ => []
  | _ => []

/-- `Buffer.from(s, "hex")` as a byte list. -/
def hexDecode (s : String) : List Nat :=
  hexPairs s.data

/-- `crypto.timingSafeEqual` on equal-length buffers: content equality
(the constant-time execution is not observable in this model). -/
def timingSafeEqual (a b : List Nat) : Bool :=
  a == b

/-- `signBody` from src/lib/hmac.ts: the keyed hash of the serialized
body under the secret, `body` standing for the serialized payload. -/
def signBody (hmac : String → String → String) (body secret : String) :
    String :=
  hmac body secret

/-- `verifySignature` from src/lib/hmac.ts: a missing or empty signature
is rejected, otherwise both signatures are hex-decoded, compared in
length, and then compared timing-safely. -/
def verifySignature (hmac : String → String → String)
    (providedSig : Option String) (body secret : String) : Bool :=
  match providedSig with
  | none => false
  | some sig =>
    if sig = "" then false
    else
      let expectedSig := signBody hmac body secret
      let a := hexDecode sig
      let b := hexDecode expectedSig
      if a.length ≠ b.length then false
      else timingSafeEqual a b

/-- What the middleware does with a request: 500 on missing secret,
401 without invoking the handler, or `next()` into the handler. -/
inductive MiddlewareOutcome where
  | misconfigured
  | rejected
  | pass
deriving DecidableEq, Repr

/-- `verifyCasinoSignature` from src/casino/casino.hmac.ts: a missing or
empty `CASINO_SECRET` is a 500; an invalid signature is a 401 and the
engine handler is never invoked; otherwise control passes to the handler. -/
def verifyCasinoSignature (hmac : String → String → String)
    (secret : Option String) (signatureHeader : Option String)
    (body : String) : MiddlewareOutcome :=
  match secret with
  | none => MiddlewareOutcome.misconfigured
  | some secretVal =>
    if secretVal = "" then MiddlewareOutcome.misconfigured
    else if verifySignature hmac signatureHeader body secretVal then
      MiddlewareOutcome.pass
    else MiddlewareOutcome.rejected

end Hmac

namespace Casino

instance exceptDecEq {ε α : Type} [DecidableEq ε] [DecidableEq α] :
    DecidableEq (Except ε α) := fun x y =>
  match x, y with
  | Except.ok a, Except.ok b =>
    if h : a = b then Decidable.isTrue (by rw [h])
    else Decidable.isFalse (by simp [h])
  | Except.ok _, Except.error _ => Decidable.isFalse (by simp)
  | Except.error _, Except.ok _ => Decidable.isFalse (by simp)
  | Except.error e, Except.error f =>
    if h : e = f then Decidable.isTrue (by rw [h])
    else Decidable.isFalse (by simp [h])

/-- The idempotency key carried by a mutating request. -/
def requestTxId : CasinoRequest → String
  | CasinoRequest.debitReq transactionId _ _ => transactionId
  | CasinoRequest.creditReq transactionId _ _ _ => transactionId
  | CasinoRequest.rollbackReq transactionId _ _ => transactionId

/-- Dispatch one mutating request to its handler. -/
def handleRequest (s : EngineState) :
    CasinoRequest → Except CasinoError Response × EngineState
  | CasinoRequest.debitReq transactionId roundId amount =>
    debit s transactionId roundId amount
  | CasinoRequest.creditReq transactionId roundId amount rel =>
    credit s transactionId roundId amount rel
  | CasinoRequest.rollbackReq transactionId roundId originalTransactionId =>
    rollback s transactionId roundId originalTransactionId

/-- The response cached by a first successful debit of 10 from balance 100. -/
def sampleResponse : Response :=
  { transactionId := "d1", balance := 90, currency := "EUR",
    status := "ok", tombstone := false }

/-- The ledger record that debit writes. -/
def sampleDebitRecord : TransactionRecord :=
  { transactionType := TxType.debit, amount := 10,
    externalTransactionId := "d1", externalRoundId := "r1",
    relatedExternalTransactionId := none, balanceAfter := 90,
    responseCache := sampleResponse }

/-- A wallet with balance 100, bet bounds [1, 1000], and an empty ledger. -/
def freshState : EngineState :=
  { playableBalance := 100, currencyCode := "EUR", minBet := 1,
    maxBet := 1000, sessionValid := true, ledger := [] }

/-- `freshState` after the debit `"d1"` of 10 in round `"r1"`. -/
def afterDebitState : EngineState :=
  { playableBalance := 90, currencyCode := "EUR", minBet := 1,
    maxBet := 1000, sessionValid := true, ledger := [sampleDebitRecord] }

/-- Total amount over the records of one transaction type. -/
def sumByType (t : TxType) (ledger : List TransactionRecord) : Int :=
  ((ledger.filter (fun r => r.transactionType == t)).map
    (fun r => r.amount)).sum

/-- A debit record is referenced by some rollback record of the ledger. -/
def debitRolledBack (ledger : List TransactionRecord)
    (d : TransactionRecord) : Bool :=
  ledger.any (fun r =>
    r.transactionType == TxType.rollback &&
      r.relatedExternalTransactionId == some d.externalTransactionId)

/-- Total amount of the debit records no rollback record references. -/
def sumDebitsNotRolledBack (ledger : List TransactionRecord) : Int :=
  ((ledger.filter (fun r =>
      r.transactionType == TxType.debit && !(debitRolledBack ledger r))).map
    (fun r => r.amount)).sum

/-- The Conservation formula exactly as the specification words it: opening
balance, plus credits, minus debits not rolled back, plus amounts restored
by rollbacks (the amount field of a rollback record is what it adds back:
the original debit amount for a reversal, zero for a tombstone). -/
def specClaimFinalBalance (opening : Int)
    (ledger : List TransactionRecord) : Int :=
  opening + sumByType TxType.credit ledger
    - sumDebitsNotRolledBack ledger
    + sumByType TxType.rollback ledger

/-- A credit of 5 paid out in round `"r1"` after the sample debit. -/
def sampleCreditRecord : TransactionRecord :=
  { transactionType := TxType.credit, amount := 5,
    externalTransactionId := "c1", externalRoundId := "r1",
    relatedExternalTransactionId := some "d1", balanceAfter := 95,
    responseCache :=
      { transactionId := "c1", balance := 95, currency := "EUR",
        status := "ok", tombstone := false } }

/-- A wallet whose round `"r1"` already holds both the sample debit and a
credit: the payout lock of §4.4 should now protect the debit `"d1"`. -/
def payoutLockedState : EngineState :=
  { playableBalance := 95, currencyCode := "EUR", minBet := 1,
    maxBet := 1000, sessionValid := true,
    ledger := [sampleDebitRecord, sampleCreditRecord] }

/-- `afterDebitState` after a first accepted rollback of the debit `"d1"`. -/
def afterFirstRollback : EngineState :=
  (rollback afterDebitState "rb1" "r1" "d1").2

/-- The wallet invariant: a non-negative balance, over a ledger whose record
amounts are all non-negative (the data model of the spec: `amount` is a
non-negative integer). -/
def WalletInv (s : EngineState) : Prop :=
  0 ≤ s.playableBalance ∧ ∀ r ∈ s.ledger, 0 ≤ r.amount

theorem applyRequest_eq_handleRequest (s : EngineState) (req : CasinoRequest) :
    applyRequest s req = (handleRequest s req).2 := by
  cases req <;> rfl

theorem find?_append_of_none {α : Type} (p : α → Bool) (l₁ l₂ : List α)
    (h : l₁.find? p = none) : (l₁ ++ l₂).find? p = l₂.find? p := by
  induction l₁ with
  | nil => simp
  | cons a l ih =>
    rw [List.find?_cons] at h
    rcases hp : p a with _ | _
    · rw [List.cons_append, List.find?_cons, hp]
      exact ih (by simpa [hp] using h)
    · simp [hp] at h

theorem findByExternalId_append (l : List TransactionRecord)
    (r : TransactionRecord) (id : String)
    (h : findByExternalId l id = none) :
    findByExternalId (l ++ [r]) id =
      if r.externalTransactionId == id then some r else none := by
  unfold findByExternalId at h ⊢
  rw [find?_append_of_none _ _ _ h, List.find?_cons]
  rcases hp : (r.externalTransactionId == id) with _ | _ <;> simp [hp]

theorem findByExternalId_append_self (l : List TransactionRecord)
    (r : TransactionRecord)
    (h : findByExternalId l r.externalTransactionId = none) :
    findByExternalId (l ++ [r]) r.externalTransactionId = some r := by
  rw [findByExternalId_append l r _ h]
  simp

theorem ledgerEffect_append (l : List TransactionRecord)
    (r : TransactionRecord) :
    ledgerEffect (l ++ [r]) = ledgerEffect l + signedEffect r := by
  simp [ledgerEffect]

theorem ledgerEffect_eq_sums (l : List TransactionRecord) :
    ledgerEffect l = sumByType TxType.credit l - sumByType TxType.debit l
      + sumByType TxType.rollback l := by
  induction l with
  | nil => rfl
  | cons r t ih =>
    rcases hrt : r.transactionType with _ | _ | _ <;>
      simp [ledgerEffect, sumByType, signedEffect, hrt,
        List.filter_cons] at * <;> omega

theorem debit_hit (s : EngineState) (tid rid : String) (a : Int)
    (r : TransactionRecord) (h : findByExternalId s.ledger tid = some r) :
    debit s tid rid a = (Except.ok r.responseCache, s) := by
  simp [debit, h]

theorem credit_hit (s : EngineState) (tid rid : String) (a : Int)
    (rel : Option String) (r : TransactionRecord)
    (h : findByExternalId s.ledger tid = some r) :
    credit s tid rid a rel = (Except.ok r.responseCache, s) := by
  simp [credit, h]

theorem rollback_hit (s : EngineState) (tid rid oid : String)
    (r : TransactionRecord) (h : findByExternalId s.ledger tid = some r) :
    rollback s tid rid oid = (Except.ok r.responseCache, s) := by
  simp [rollback, h]

theorem debit_ok_cached (s : EngineState) (tid rid : String) (a : Int)
    (res : Response) (s₁ : EngineState)
    (h : debit s tid rid a = (Except.ok res, s₁)) :
    ∃ r₁, findByExternalId s₁.ledger tid = some r₁ ∧
      r₁.responseCache = res := by
  unfold debit at h
  split at h
  · next r hfind =>
    simp only [Prod.mk.injEq, Except.ok.injEq] at h
    obtain ⟨hres, hstate⟩ := h
    subst hstate
    exact ⟨r, hfind, hres⟩
  · next hfind =>
    split at h
    · simp at h
    · split at h
      · simp at h
      · split at h
        · simp at h
        · simp only [Prod.mk.injEq, Except.ok.injEq] at h
          obtain ⟨hres, hstate⟩ := h
          subst hstate
          exact ⟨_, findByExternalId_append_self s.ledger _ hfind, hres⟩

theorem credit_ok_cached (s : EngineState) (tid rid : String) (a : Int)
    (rel : Option String) (res : Response) (s₁ : EngineState)
    (h : credit s tid rid a rel = (Except.ok res, s₁)) :
    ∃ r₁, findByExternalId s₁.ledger tid = some r₁ ∧
      r₁.responseCache = res := by
  unfold credit at h
  split at h
  · next r hfind =>
    simp only [Prod.mk.injEq, Except.ok.injEq] at h
    obtain ⟨hres, hstate⟩ := h
    subst hstate
    exact ⟨r, hfind, hres⟩
  · next hfind =>
    split at h
    · simp at h
    · simp only [Prod.mk.injEq, Except.ok.injEq] at h
      obtain ⟨hres, hstate⟩ := h
      subst hstate
      exact ⟨_, findByExternalId_append_self s.ledger _ hfind, hres⟩

theorem rollback_ok_cached (s : EngineState) (tid rid oid : String)
    (res : Response) (s₁ : EngineState)
    (h : rollback s tid rid oid = (Except.ok res, s₁)) :
    ∃ r₁, findByExternalId s₁.ledger tid = some r₁ ∧
      r₁.responseCache = res := by
  unfold rollback at h
  split at h
  · next r hfind =>
    simp only [Prod.mk.injEq, Except.ok.injEq] at h
    obtain ⟨hres, hstate⟩ := h
    subst hstate
    exact ⟨r, hfind, hres⟩
  · next hfind =>
    split at h
    · simp at h
    · split at h
      · simp only [Prod.mk.injEq, Except.ok.injEq] at h
        obtain ⟨hres, hstate⟩ := h
        subst hstate
        exact ⟨_, findByExternalId_append_self s.ledger _ hfind, hres⟩
      · split at h
        · simp at h
        · split at h
          · simp at h
          · simp only [Prod.mk.injEq, Except.ok.injEq] at h
            obtain ⟨hres, hstate⟩ := h
            subst hstate
            exact ⟨_, findByExternalId_append_self s.ledger _ hfind, hres⟩

theorem handleRequest_hit (s : EngineState) (req : CasinoRequest)
    (r : TransactionRecord)
    (h : findByExternalId s.ledger (requestTxId req) = some r) :
    handleRequest s req = (Except.ok r.responseCache, s) := by
  cases req with
  | debitReq tid rid a => exact debit_hit s tid rid a r h
  | creditReq tid rid a rel => exact credit_hit s tid rid a rel r h
  | rollbackReq tid rid oid => exact rollback_hit s tid rid oid r h

theorem handleRequest_ok_cached (s : EngineState) (req : CasinoRequest)
    (res : Response) (s₁ : EngineState)
    (h : handleRequest s req = (Except.ok res, s₁)) :
    ∃ r₁, findByExternalId s₁.ledger (requestTxId req) = some r₁ ∧
      r₁.responseCache = res := by
  cases req with
  | debitReq tid rid a => exact debit_ok_cached s tid rid a res s₁ h
  | creditReq tid rid a rel => exact credit_ok_cached s tid rid a rel res s₁ h
  | rollbackReq tid rid oid => exact rollback_ok_cached s tid rid oid res s₁ h

theorem applyRequest_balance_effect (s : EngineState) (req : CasinoRequest) :
    (applyRequest s req).playableBalance
        - ledgerEffect (applyRequest s req).ledger
      = s.playableBalance - ledgerEffect s.ledger := by
  cases req
  all_goals simp only [applyRequest, debit, credit, rollback]
  all_goals repeat' split
  all_goals simp [ledgerEffect_append, signedEffect]
  all_goals omega

theorem runRequests_balance_effect (reqs : List CasinoRequest)
    (s : EngineState) :
    (runRequests s reqs).playableBalance
        - ledgerEffect (runRequests s reqs).ledger
      = s.playableBalance - ledgerEffect s.ledger := by
  induction reqs generalizing s with
  | nil => rfl
  | cons r rs ih =>
    have hstep := applyRequest_balance_effect s r
    calc (runRequests s (r :: rs)).playableBalance
          - ledgerEffect (runRequests s (r :: rs)).ledger
        = (runRequests (applyRequest s r) rs).playableBalance
            - ledgerEffect (runRequests (applyRequest s r) rs).ledger := rfl
      _ = (applyRequest s r).playableBalance
            - ledgerEffect (applyRequest s r).ledger := ih (applyRequest s r)
      _ = s.playableBalance - ledgerEffect s.ledger := hstep

theorem mem_append_single {l : List TransactionRecord}
    {rec r : TransactionRecord} (hr : r ∈ l ++ [rec]) : r ∈ l ∨ r = rec := by
  rcases List.mem_append.mp hr with h | h
  · exact Or.inl h
  · exact Or.inr (List.mem_singleton.mp h)

theorem debit_preserves_inv (s : EngineState) (tid rid : String) (a : Int)
    (hInv : WalletInv s) (ha : 0 ≤ a) : WalletInv (debit s tid rid a).2 := by
  obtain ⟨hbal, hled⟩ := hInv
  unfold WalletInv
  unfold debit
  split
  · exact ⟨hbal, hled⟩
  · split
    · exact ⟨hbal, hled⟩
    · split
      · exact ⟨hbal, hled⟩
      · split
        · exact ⟨hbal, hled⟩
        · next hfunds =>
          constructor
          · simp only
            omega
          · intro r hr
            simp only at hr
            rcases mem_append_single hr with h | h
            · exact hled r h
            · rw [h]
              exact ha

theorem credit_preserves_inv (s : EngineState) (tid rid : String) (a : Int)
    (rel : Option String) (hInv : WalletInv s) (ha : 0 ≤ a) :
    WalletInv (credit s tid rid a rel).2 := by
  obtain ⟨hbal, hled⟩ := hInv
  unfold WalletInv
  unfold credit
  split
  · exact ⟨hbal, hled⟩
  · split
    · exact ⟨hbal, hled⟩
    · constructor
      · simp only
        omega
      · intro r hr
        simp only at hr
        rcases mem_append_single hr with h | h
        · exact hled r h
        · rw [h]
          exact ha

theorem rollback_preserves_inv (s : EngineState) (tid rid oid : String)
    (hInv : WalletInv s) : WalletInv (rollback s tid rid oid).2 := by
  obtain ⟨hbal, hled⟩ := hInv
  unfold WalletInv
  unfold rollback
  split
  · exact ⟨hbal, hled⟩
  · split
    · exact ⟨hbal, hled⟩
    · split
      · constructor
        · simp only
          omega
        · intro r hr
          simp only at hr
          rcases mem_append_single hr with h | h
          · exact hled r h
          · rw [h]
      · next orig hfind =>
        have horigmem : orig ∈ s.ledger := List.mem_of_find?_eq_some hfind
        have horigamt : 0 ≤ orig.amount := hled orig horigmem
        split
        · exact ⟨hbal, hled⟩
        · split
          · exact ⟨hbal, hled⟩
          · constructor
            · simp only
              omega
            · intro r hr
              simp only at hr
              rcases mem_append_single hr with h | h
              · exact hled r h
              · rw [h]
                exact horigamt

/-! ## Claim theorems -/

/-- C1: for every mutating request whose `externalTransactionId` already has
a `TransactionRecord`, the handler returns the previously cached response
payload with the engine state (wallet balance and ledger) untouched; and
once a request has been answered successfully, resubmitting it returns the
byte-identical response and changes nothing, so the balance moves exactly
once however often the request is repeated. -/
theorem idempotent_replay (s : EngineState) (req : CasinoRequest) :
    (∀ r, findByExternalId s.ledger (requestTxId req) = some r →
      handleRequest s req = (Except.ok r.responseCache, s)) ∧
    (∀ res s₁, handleRequest s req = (Except.ok res, s₁) →
      handleRequest s₁ req = (Except.ok res, s₁)) := by
  refine ⟨fun r h => handleRequest_hit s req r h, fun res s₁ h => ?_⟩
  obtain ⟨r₁, hfind, hcache⟩ := handleRequest_ok_cached s req res s₁ h
  rw [handleRequest_hit s₁ req r₁ hfind, hcache]

theorem idempotent_replay_witness :
    handleRequest afterDebitState (CasinoRequest.debitReq "d1" "r1" 10)
        = (Except.ok sampleDebitRecord.responseCache, afterDebitState) ∧
    handleRequest afterDebitState (CasinoRequest.debitReq "d1" "r1" 10)
        = (Except.ok sampleResponse, afterDebitState) :=
  ⟨(idempotent_replay afterDebitState
      (CasinoRequest.debitReq "d1" "r1" 10)).1 sampleDebitRecord (by decide),
   (idempotent_replay freshState
      (CasinoRequest.debitReq "d1" "r1" 10)).2 sampleResponse afterDebitState
     (by rfl)⟩

/-- C2 falsified as stated: from opening balance 100, a debit of 10 followed
by its accepted rollback ends at balance 100, but the specification formula
(opening + credits − debits-not-rolled-back + rollback-restored amounts)
evaluates to 100 + 0 − 0 + 10 = 110, because a rolled-back debit is excluded
from the debit sum while its restoring rollback is still added. -/
theorem conservation_spec_formula_counterexample :
    (runRequests freshState
        [CasinoRequest.debitReq "d1" "r1" 10,
         CasinoRequest.rollbackReq "rb1" "r1" "d1"]).playableBalance ≠
      specClaimFinalBalance freshState.playableBalance
        (runRequests freshState
          [CasinoRequest.debitReq "d1" "r1" 10,
           CasinoRequest.rollbackReq "rb1" "r1" "d1"]).ledger := by
  decide

/-- C2 (amended): for any sequence of requests processed from an empty
ledger, the final balance equals the opening balance plus the sum of credit
amounts, minus the sum of all debit amounts, plus the sum of rollback
amounts (the amount a rollback restored: the original debit amount for a
reversal, zero for a tombstone). -/
theorem conservation_formula (s0 : EngineState) (reqs : List CasinoRequest)
    (h : s0.ledger = []) :
    (runRequests s0 reqs).playableBalance =
      s0.playableBalance
        + sumByType TxType.credit (runRequests s0 reqs).ledger
        - sumByType TxType.debit (runRequests s0 reqs).ledger
        + sumByType TxType.rollback (runRequests s0 reqs).ledger := by
  have hrun := runRequests_balance_effect reqs s0
  rw [h] at hrun
  rw [ledgerEffect_eq_sums] at hrun
  have h0 : ledgerEffect ([] : List TransactionRecord) = 0 := rfl
  omega

theorem conservation_formula_witness :
    freshState.ledger = [] ∧
    (runRequests freshState
        [CasinoRequest.debitReq "d1" "r1" 10,
         CasinoRequest.rollbackReq "rb1" "r1" "d1"]).playableBalance =
      freshState.playableBalance
        + sumByType TxType.credit (runRequests freshState
            [CasinoRequest.debitReq "d1" "r1" 10,
             CasinoRequest.rollbackReq "rb1" "r1" "d1"]).ledger
        - sumByType TxType.debit (runRequests freshState
            [CasinoRequest.debitReq "d1" "r1" 10,
             CasinoRequest.rollbackReq "rb1" "r1" "d1"]).ledger
        + sumByType TxType.rollback (runRequests freshState
            [CasinoRequest.debitReq "d1" "r1" 10,
             CasinoRequest.rollbackReq "rb1" "r1" "d1"]).ledger :=
  ⟨rfl,
   conservation_formula freshState
     [CasinoRequest.debitReq "d1" "r1" 10,
      CasinoRequest.rollbackReq "rb1" "r1" "d1"] rfl⟩

/-- C3 falsified as stated: in `payoutLockedState` round `"r1"` already has
a credit record and `"d1"` is a debit record of round `"r1"`, yet the
rollback request `"rb1"` targeting `"d1"` is accepted and pays the debit
amount back, because it carries round reference `"r2"` and the handler
checks `HasCreditForRound` against the round reference of the rollback
request, not the round of the targeted debit record. -/
theorem rollback_payout_lock_counterexample :
    hasCreditForRound payoutLockedState.ledger "r1" = true ∧
    findByExternalId payoutLockedState.ledger "d1" = some sampleDebitRecord ∧
    sampleDebitRecord.transactionType = TxType.debit ∧
    sampleDebitRecord.externalRoundId = "r1" ∧
    findByExternalId payoutLockedState.ledger "rb1" = none ∧
    (rollback payoutLockedState "rb1" "r2" "d1").1 ≠
      Except.error CasinoError.RollbackAfterPayout ∧
    (rollback payoutLockedState "rb1" "r2" "d1").2.playableBalance =
      payoutLockedState.playableBalance + 10 := by
  decide

/-- C3 (amended): once any credit record exists for a roundRef, every fresh
rollback request that carries that roundRef and targets an existing debit
record is rejected with `RollbackAfterPayout`, writes no record, and leaves
the wallet balance unchanged. -/
theorem rollback_payout_lock (s : EngineState) (tid rid oid : String)
    (orig : TransactionRecord)
    (hfresh : findByExternalId s.ledger tid = none)
    (hsess : s.sessionValid = true)
    (horig : findByExternalId s.ledger oid = some orig)
    (htype : orig.transactionType = TxType.debit)
    (hcredit : hasCreditForRound s.ledger rid = true) :
    rollback s tid rid oid =
      (Except.error CasinoError.RollbackAfterPayout, s) := by
  simp [rollback, hfresh, hsess, horig, htype, hcredit]

theorem rollback_payout_lock_witness :
    findByExternalId payoutLockedState.ledger "rb1" = none ∧
    payoutLockedState.sessionValid = true ∧
    findByExternalId payoutLockedState.ledger "d1" = some sampleDebitRecord ∧
    sampleDebitRecord.transactionType = TxType.debit ∧
    hasCreditForRound payoutLockedState.ledger "r1" = true ∧
    rollback payoutLockedState "rb1" "r1" "d1" =
      (Except.error CasinoError.RollbackAfterPayout, payoutLockedState) :=
  ⟨by decide, by decide, by decide, by decide, by decide,
   rollback_payout_lock payoutLockedState "rb1" "r1" "d1" sampleDebitRecord
     (by decide) (by decide) (by decide) (by decide) (by decide)⟩

/-- C4: a fresh debit that passes session resolution and the bet-bounds
check but exceeds the playable balance fails with `InsufficientFunds`, and
the engine state — wallet, ledger, and therefore the idempotency index —
is returned unchanged; consequently a later debit carrying the same
`externalTransactionId` is processed from scratch and succeeds, decreasing
the balance by the amount, as soon as funds cover it. -/
theorem debit_insufficient_funds (s : EngineState) (tid rid : String)
    (a : Int)
    (hfresh : findByExternalId s.ledger tid = none)
    (hsess : s.sessionValid = true)
    (hmin : s.minBet ≤ a) (hmax : a ≤ s.maxBet)
    (hbal : s.playableBalance < a) :
    debit s tid rid a = (Except.error CasinoError.InsufficientFunds, s) ∧
    ∀ s₂ : EngineState, findByExternalId s₂.ledger tid = none →
      s₂.sessionValid = true → s₂.minBet ≤ a → a ≤ s₂.maxBet →
      a ≤ s₂.playableBalance →
      (debit s₂ tid rid a).1 =
        Except.ok { transactionId := tid,
                    balance := s₂.playableBalance - a,
                    currency := s₂.currencyCode, status := "ok",
                    tombstone := false } ∧
      (debit s₂ tid rid a).2.playableBalance = s₂.playableBalance - a := by
  constructor
  · have hnb : ¬(a < s.minBet ∨ a > s.maxBet) := by omega
    simp [debit, hfresh, hsess, hnb, hbal]
  · intro s₂ hfresh₂ hsess₂ hmin₂ hmax₂ hbal₂
    have hnb : ¬(a < s₂.minBet ∨ a > s₂.maxBet) := by omega
    have hnf : ¬(s₂.playableBalance < a) := by omega
    simp [debit, hfresh₂, hsess₂, hnb, hnf]

theorem debit_insufficient_funds_witness :
    findByExternalId afterDebitState.ledger "d2" = none ∧
    afterDebitState.sessionValid = true ∧
    afterDebitState.minBet ≤ 500 ∧ (500 : Int) ≤ afterDebitState.maxBet ∧
    afterDebitState.playableBalance < 500 ∧
    debit afterDebitState "d2" "r2" 500 =
      (Except.error CasinoError.InsufficientFunds, afterDebitState) :=
  ⟨by decide, by decide, by decide, by decide, by decide,
   (debit_insufficient_funds afterDebitState "d2" "r2" 500
     (by decide) (by decide) (by decide) (by decide) (by decide)).1⟩

/-- C5: a fresh rollback whose `originalTransactionId` matches no record
succeeds as a tombstone: the response carries the tombstone flag and the
current balance, the wallet is not mutated, and the only state change is
the append of a zero-amount rollback record whose
`relatedExternalTransactionId` is the unknown original id and whose
`balanceAfter` is the current balance. -/
theorem rollback_tombstone (s : EngineState) (tid rid oid : String)
    (hfresh : findByExternalId s.ledger tid = none)
    (hsess : s.sessionValid = true)
    (horig : findByExternalId s.ledger oid = none) :
    rollback s tid rid oid =
      (Except.ok { transactionId := tid, balance := s.playableBalance,
                   currency := s.currencyCode, status := "ok",
                   tombstone := true },
       { s with ledger := s.ledger ++
           [{ transactionType := TxType.rollback, amount := 0,
              externalTransactionId := tid, externalRoundId := rid,
              relatedExternalTransactionId := some oid,
              balanceAfter := s.playableBalance,
              responseCache :=
                { transactionId := tid, balance := s.playableBalance,
                  currency := s.currencyCode, status := "ok",
                  tombstone := true } }] }) := by
  simp [rollback, hfresh, hsess, horig]

theorem rollback_tombstone_witness :
    findByExternalId freshState.ledger "rb9" = none ∧
    freshState.sessionValid = true ∧
    findByExternalId freshState.ledger "ghost" = none ∧
    (rollback freshState "rb9" "r9" "ghost").1 =
      Except.ok { transactionId := "rb9", balance := 100, currency := "EUR",
                  status := "ok", tombstone := true } ∧
    (rollback freshState "rb9" "r9" "ghost").2.playableBalance = 100 :=
  ⟨by decide, by decide, by decide,
   by
     rw [rollback_tombstone freshState "rb9" "r9" "ghost"
       (by decide) (by decide) (by decide)]
     rfl,
   by
     rw [rollback_tombstone freshState "rb9" "r9" "ghost"
       (by decide) (by decide) (by decide)]
     rfl⟩

/-- C6: a fresh debit with a resolved session is rejected with
`AmountOutOfRange`, writing nothing and leaving the state unchanged,
whenever the amount lies outside the inclusive range [minBet, maxBet];
within the range and with sufficient funds, it succeeds and the balance
decreases by exactly the amount. -/
theorem debit_bet_bounds (s : EngineState) (tid rid : String) (a : Int)
    (hfresh : findByExternalId s.ledger tid = none)
    (hsess : s.sessionValid = true) :
    ((a < s.minBet ∨ a > s.maxBet) →
      debit s tid rid a = (Except.error CasinoError.AmountOutOfRange, s)) ∧
    (s.minBet ≤ a → a ≤ s.maxBet → a ≤ s.playableBalance →
      (debit s tid rid a).1 =
        Except.ok { transactionId := tid,
                    balance := s.playableBalance - a,
                    currency := s.currencyCode, status := "ok",
                    tombstone := false } ∧
      (debit s tid rid a).2.playableBalance = s.playableBalance - a) := by
  constructor
  · intro hout
    simp [debit, hfresh, hsess, hout]
  · intro hmin hmax hbal
    have hnb : ¬(a < s.minBet ∨ a > s.maxBet) := by omega
    have hnf : ¬(s.playableBalance < a) := by omega
    simp [debit, hfresh, hsess, hnb, hnf]

theorem debit_bet_bounds_witness :
    findByExternalId freshState.ledger "d3" = none ∧
    freshState.sessionValid = true ∧
    ((2000 : Int) < freshState.minBet ∨ (2000 : Int) > freshState.maxBet) ∧
    debit freshState "d3" "r3" 2000 =
      (Except.error CasinoError.AmountOutOfRange, freshState) :=
  ⟨by decide, by decide, by decide,
   (debit_bet_bounds freshState "d3" "r3" 2000 (by decide) (by decide)).1
     (by decide)⟩

/-- C7: a fresh rollback whose `originalTransactionId` matches an existing
record that is not a debit is rejected with `InvalidRollbackTarget`, and
the wallet and ledger are returned unchanged. -/
theorem rollback_invalid_target (s : EngineState) (tid rid oid : String)
    (orig : TransactionRecord)
    (hfresh : findByExternalId s.ledger tid = none)
    (hsess : s.sessionValid = true)
    (horig : findByExternalId s.ledger oid = some orig)
    (htype : orig.transactionType ≠ TxType.debit) :
    rollback s tid rid oid =
      (Except.error CasinoError.InvalidRollbackTarget, s) := by
  simp [rollback, hfresh, hsess, horig, htype]

theorem rollback_invalid_target_witness :
    findByExternalId payoutLockedState.ledger "rb5" = none ∧
    payoutLockedState.sessionValid = true ∧
    findByExternalId payoutLockedState.ledger "c1" =
      some sampleCreditRecord ∧
    sampleCreditRecord.transactionType ≠ TxType.debit ∧
    rollback payoutLockedState "rb5" "r1" "c1" =
      (Except.error CasinoError.InvalidRollbackTarget, payoutLockedState) :=
  ⟨by decide, by decide, by decide, by decide,
   rollback_invalid_target payoutLockedState "rb5" "r1" "c1"
     sampleCreditRecord (by decide) (by decide) (by decide) (by decide)⟩

/-- C8: with non-negative request amounts (`amount` in the data model is a
non-negative integer), every mutating operation preserves the invariant
that the playable balance is non-negative (and that all ledger record
amounts stay non-negative, which is what keeps rollback reversals safe);
moreover a fresh in-bounds debit that would drive the balance negative
fails with `InsufficientFunds`, while a fresh credit never fails the
balance check.  The balance query does not touch the state at all. -/
theorem balance_nonneg_preserved (s : EngineState) (tid rid oid : String)
    (a : Int) (rel : Option String) (hInv : WalletInv s) (ha : 0 ≤ a) :
    WalletInv (debit s tid rid a).2 ∧
    WalletInv (credit s tid rid a rel).2 ∧
    WalletInv (rollback s tid rid oid).2 ∧
    (findByExternalId s.ledger tid = none → s.sessionValid = true →
      s.minBet ≤ a → a ≤ s.maxBet → s.playableBalance < a →
      (debit s tid rid a).1 = Except.error CasinoError.InsufficientFunds) ∧
    (findByExternalId s.ledger tid = none → s.sessionValid = true →
      (credit s tid rid a rel).1 =
        Except.ok { transactionId := tid,
                    balance := s.playableBalance + a,
                    currency := s.currencyCode, status := "ok",
                    tombstone := false }) := by
  refine ⟨debit_preserves_inv s tid rid a hInv ha,
    credit_preserves_inv s tid rid a rel hInv ha,
    rollback_preserves_inv s tid rid oid hInv, ?_, ?_⟩
  · intro hfresh hsess hmin hmax hbal
    have hnb : ¬(a < s.minBet ∨ a > s.maxBet) := by omega
    simp [debit, hfresh, hsess, hnb, hbal]
  · intro hfresh hsess
    simp [credit, hfresh, hsess]

theorem balance_nonneg_preserved_witness :
    WalletInv freshState ∧ (0 : Int) ≤ 10 ∧
    WalletInv (debit freshState "d1" "r1" 10).2 :=
  ⟨⟨by decide, by decide⟩, by decide,
   (balance_nonneg_preserved freshState "d1" "r1" "x" 10 none
     ⟨by decide, by decide⟩ (by decide)).1⟩

/-- C9: the rollback handler never checks whether the targeted debit was
already rolled back: starting from the state after the sample debit of 10
(balance 90, round `"r1"` without credit), the two rollback requests
`"rb1"` and `"rb2"`, both referencing the debit `"d1"`, are both accepted,
each writes a rollback record (two rollback records end up in the ledger),
and each adds the original debit amount back: 90 → 100 → 110. -/
theorem double_rollback_accepted :
    afterDebitState.playableBalance = 90 ∧
    hasCreditForRound afterDebitState.ledger "r1" = false ∧
    (rollback afterDebitState "rb1" "r1" "d1").1 =
      Except.ok { transactionId := "rb1", balance := 100, currency := "EUR",
                  status := "ok", tombstone := false } ∧
    afterFirstRollback.playableBalance = 100 ∧
    (rollback afterFirstRollback "rb2" "r1" "d1").1 =
      Except.ok { transactionId := "rb2", balance := 110, currency := "EUR",
                  status := "ok", tombstone := false } ∧
    (rollback afterFirstRollback "rb2" "r1" "d1").2.playableBalance = 110 ∧
    ((rollback afterFirstRollback "rb2" "r1" "d1").2.ledger.filter
        (fun r => r.transactionType == TxType.rollback)).length = 2 := by
  decide

end Casino

namespace Hmac

/-- C10: verifying the signature produced by signing a body with a secret
succeeds, for any keyed hash whose digest is non-empty; a missing signature
is rejected, as is any supplied signature whose decoded bytes differ from
those of the recomputed signature (collisions of the keyed hash aside, this
covers every signature of a different body or secret); and whenever
verification fails the middleware answers 401 instead of passing control to
the engine handler. -/
theorem signature_verification (hmac : String → String → String)
    (body secret : String)
    (hsig : signBody hmac body secret ≠ "")
    (hsecret : secret ≠ "") :
    verifySignature hmac none body secret = false ∧
    verifySignature hmac (some (signBody hmac body secret)) body secret
      = true ∧
    (∀ sig, hexDecode sig ≠ hexDecode (signBody hmac body secret) →
      verifySignature hmac (some sig) body secret = false) ∧
    (∀ sigHeader, verifySignature hmac sigHeader body secret = false →
      verifyCasinoSignature hmac (some secret) sigHeader body =
        MiddlewareOutcome.rejected) := by
  refine ⟨rfl, ?_, ?_, ?_⟩
  · simp [verifySignature, hsig, timingSafeEqual]
  · intro sig hne
    by_cases hempty : sig = ""
    · simp [verifySignature, hempty]
    · by_cases hlen : (hexDecode sig).length =
        (hexDecode (signBody hmac body secret)).length
      · simp [verifySignature, hempty, timingSafeEqual, hlen, hne]
      · simp [verifySignature, hempty, hlen]
  · intro sigHeader hfalse
    simp [verifyCasinoSignature, hsecret, hfalse]

theorem signature_verification_witness :
    signBody (fun _ _ => "ab") "x" "k" ≠ "" ∧ ("k" : String) ≠ "" ∧
    verifySignature (fun _ _ => "ab")
      (some (signBody (fun _ _ => "ab") "x" "k")) "x" "k" = true :=
  ⟨by decide, by decide,
   (signature_verification (fun _ _ => "ab") "x" "k"
     (by decide) (by decide)).2.1⟩

end Hmac
